import Mathlib

/-!
Verification development for the Zen Harmonics game engine
(`game-engine.service.new.ts`, `harmonic-system` service and the entity
models).  The TypeScript source is embedded shallowly: numbers become `ℚ`,
entity records become structures, and every stateful method becomes an
explicit function `EngineState → ... → EngineState`.

Conventions of the embedding:
* JavaScript numbers are modelled as exact rationals.  Comparisons of the
  form `Math.sqrt q < b` are embedded as the equivalent squared
  comparisons (both sides are non-negative), so the collision and
  activation predicates are exact.
* Where the source stores an actual square root into the state
  (knockback normalisation, impulse normalisation, speed damping) we use
  `ratSqrt`, the exact rational square root, which agrees with the real
  square root on perfect rational squares; every theorem that inspects
  such a value carries a hypothesis making the root exact.
* The one place where IEEE semantics differ observably from any exact
  model — division by a zero magnitude in `applyImpulse`, which produces
  `NaN` in JavaScript — is modelled separately with the `JSNum` type that
  has an explicit non-finite element.
* `setTimeout` callbacks scheduled by `applyAmplifierEffect` are modelled
  as entries of an ambient timer queue (`timeouts`) carried in the state;
  firing an entry applies exactly the callback body.  The queue is part of
  the JavaScript platform, so `startGame` (which never touches timers in
  the source) leaves it untouched.
* Purely presentational fields (colors, ids as strings, names, opacity of
  entities not mentioned by any claim, event timestamps) are omitted;
  entity ids are modelled as `ℕ`.
-/

/-- Exact rational square root: returns `r` with `r * r = q` when such a
non-negative rational exists, and `0` otherwise.  It agrees with
`Math.sqrt` on perfect rational squares (the only inputs on which the
theorems below evaluate it). -/
def ratSqrt (q : ℚ) : ℚ :=
  if q < 0 then 0
  else
    let n := Nat.sqrt q.num.toNat
    let d := Nat.sqrt q.den
    if (n * n : ℤ) = q.num ∧ d * d = q.den then (n : ℚ) / (d : ℚ) else 0

/-- Model of a JavaScript number for the one code path where IEEE
non-finite values are observable: `fin q` is a finite value, `nan`
collapses every non-finite result (`NaN`, `±Infinity`). -/
inductive JSNum where
  | fin (q : ℚ)
  | nan
  deriving DecidableEq, Repr

/-- JavaScript addition: non-finite values propagate. -/
def jsAdd : JSNum → JSNum → JSNum
  | .fin a, .fin b => .fin (a + b)
  | _, _ => .nan

/-- JavaScript multiplication: non-finite values propagate (the model does
not track the finite `Infinity * 0 = NaN`-style cases separately). -/
def jsMul : JSNum → JSNum → JSNum
  | .fin a, .fin b => .fin (a * b)
  | _, _ => .nan

/-- JavaScript division: dividing by zero yields a non-finite value
(`0/0 = NaN`, `x/0 = ±Infinity`), collapsed into `nan`. -/
def jsDiv : JSNum → JSNum → JSNum
  | .fin a, .fin b => if b = 0 then .nan else .fin (a / b)
  | _, _ => .nan

/-- Boolean test for `Math.sqrt q < bound` (for `0 ≤ q`), written on
squares so that it is exact over `ℚ`. -/
def sqrtLt (q bound : ℚ) : Bool :=
  decide (0 < bound) && decide (q < bound * bound)

/-- Boolean test for `bound < Math.sqrt q` (for `0 ≤ q`), written on
squares so that it is exact over `ℚ`. -/
def ltSqrt (bound q : ℚ) : Bool :=
  decide (bound < 0) || decide (bound * bound < q)

/-- Model of the JavaScript `x || dflt` idiom applied to an optional
numeric field: `undefined` and the falsy value `0` both fall back to the
default. -/
def jsOr (x : Option ℚ) (dflt : ℚ) : ℚ :=
  match x with
  | some v => if v = 0 then dflt else v
  | none => dflt

/-- Planar vector, used for positions, velocities and input directions. -/
structure V2 where
  x : ℚ
  y : ℚ
  deriving DecidableEq, Repr

/-- Enumeration `GameState` (game-state enum of the models). -/
inductive GameState where
  | menu | playing | paused | gameOver | loading | victory | tutorial
  deriving DecidableEq, Repr

/-- Enumeration `EnergyType`. -/
inductive EnergyType where
  | calm | vibrant | intense | harmonic
  deriving DecidableEq, Repr

/-- Dissonance kinds (`DissonanceType` in the service). -/
inductive DissonanceType where
  | static | moving | pulsating | disruptive
  deriving DecidableEq, Repr

/-- Amplifier kinds handled by the service (`HarmonyAmplifierType`). -/
inductive AmplifierType where
  | energy | frequency | amplitude | resonance
  | balance | clarity | expansion | stability
  deriving DecidableEq, Repr

/-- Energy balance record of the core. -/
structure EnergyBalance where
  calm : ℚ
  vibrant : ℚ
  intense : ℚ
  deriving DecidableEq, Repr

/-- `HarmonicCore` (harmonics model), restricted to the fields read or
written by the embedded operations. -/
structure HarmonicCore where
  position : V2
  velocity : V2
  radius : ℚ
  energy : ℚ
  maxEnergy : ℚ
  harmonyLevel : ℚ
  frequency : ℚ
  amplitude : ℚ
  energyBalance : EnergyBalance
  brightness : ℚ
  isActive : Bool
  activeEffects : List String
  deriving DecidableEq, Repr

/-- `createHarmonicCore` with a position override (as used by
`startGame`); all remaining fields take the factory defaults. -/
def createHarmonicCoreAt (p : V2) : HarmonicCore :=
  { position := p
    velocity := ⟨0, 0⟩
    radius := 25
    energy := 100
    maxEnergy := 100
    harmonyLevel := 1
    frequency := 1
    amplitude := 1
    energyBalance := ⟨33, 33, 34⟩
    brightness := 1
    isActive := true
    activeEffects := [] }

/-- `createHarmonicCore()` with the default position `(275, 275)`. -/
def createHarmonicCore : HarmonicCore := createHarmonicCoreAt ⟨275, 275⟩

/-- `Dissonance` (harmonics model), restricted to the fields the embedded
collision logic reads.  The source's `radius` is optional and defaulted
with `|| 15` at every use site. -/
structure Dissonance where
  id : ℕ
  position : V2
  dtype : DissonanceType
  radius : Option ℚ
  disruptionLevel : ℚ
  isActive : Bool
  deriving DecidableEq, Repr

/-- `HarmonyAmplifier`, restricted to the fields the embedded collision
and effect logic reads. -/
structure Amplifier where
  id : ℕ
  position : V2
  atype : AmplifierType
  value : ℚ
  radius : ℚ
  duration : ℚ
  isActive : Bool
  deriving DecidableEq, Repr

/-- Game events emitted through the engine's event subject, with the
payload fields the source attaches (wall-clock timestamps omitted; the
`patterns` count of `GAME_ENDED` is omitted together with the engine's
pattern list, which no claim reads). -/
inductive GE where
  | gameStarted
  | gameEnded (score : ℚ) (harmonyLevel : ℚ)
  | energyDepleted
  | coreCollision (position : V2) (disruptionLevel : ℚ) (dtype : DissonanceType)
  | powerupCollected (position : V2) (atype : AmplifierType) (value : ℚ)
  | energyBalanced (oldBalance newBalance : EnergyBalance)
  | resonatorConnected (position : V2) (energyType : EnergyType)
  deriving DecidableEq, Repr

/-- Kind of a pending `setTimeout` reversal scheduled by
`applyAmplifierEffect`. -/
inductive ReversalKind where
  | freqBoost
  | ampBoost
  deriving DecidableEq, Repr

/-- One pending `setTimeout` callback: fires at wall-clock time `fireAt`
(milliseconds) and reverses a boost of size `value`. -/
structure TimeoutEntry where
  fireAt : ℚ
  kind : ReversalKind
  value : ℚ
  deriving DecidableEq, Repr

/-- Engine configuration, restricted to the fields the embedded
operations read (`physics`, `energy.decayRate` and the canvas size). -/
structure EngineConfig where
  gravity : ℚ
  friction : ℚ
  maxSpeed : ℚ
  impulseForce : ℚ
  decayRate : ℚ
  canvasW : ℚ
  canvasH : ℚ
  deriving DecidableEq, Repr

/-- `createDefaultGameConfig()`, restricted to the embedded fields. -/
def createDefaultGameConfig : EngineConfig :=
  { gravity := 0
    friction := 98/100
    maxSpeed := 5
    impulseForce := 1/2
    decayRate := 1/10
    canvasW := 550
    canvasH := 550 }

/-- Full state of `GameEngineService`: the signal cells, the private
timers, the event stream so far, and the ambient JavaScript timer queue
(`timeouts`) plus wall clock (`now`, ms) that `setTimeout` lives on. -/
structure EngineState where
  gameState : GameState
  core : HarmonicCore
  dissonances : List Dissonance
  amplifiers : List Amplifier
  config : EngineConfig
  score : ℚ
  coreHitCooldown : ℚ
  deltaTime : ℚ
  events : List GE
  timeouts : List TimeoutEntry
  now : ℚ
  deriving DecidableEq, Repr

/-- Value of `collisionCooldown` (seconds between hits). -/
def collisionCooldown : ℚ := 6/10

/-- State right after construction / `initializeGame()`. -/
def initialEngineState : EngineState :=
  { gameState := .menu
    core := createHarmonicCore
    dissonances := []
    amplifiers := []
    config := createDefaultGameConfig
    score := 0
    coreHitCooldown := 0
    deltaTime := 0
    events := [GE.gameStarted]
    timeouts := []
    now := 0 }

/-- Advance of the ambient wall clock between engine calls (environment
action, not an engine method). -/
def advanceClock (s : EngineState) (t : ℚ) : EngineState := { s with now := t }

/-- `startGame()` (without config overrides): rejected while PLAYING,
otherwise installs a default config, a fresh centered core, empty entity
lists, zero score, and enters PLAYING.  The source never cancels pending
`setTimeout` callbacks, so `timeouts` is untouched. -/
def startGame (s : EngineState) : EngineState :=
  if s.gameState = GameState.playing then s
  else
    let cfg := createDefaultGameConfig
    { s with config := cfg
             core := createHarmonicCoreAt ⟨cfg.canvasW / 2, cfg.canvasH / 2⟩
             dissonances := []
             amplifiers := []
             score := 0
             gameState := GameState.playing
             events := s.events ++ [GE.gameStarted] }

/-- `endGame()`: from PLAYING or PAUSED, enter GAME_OVER and emit
`GAME_ENDED`. -/
def endGame (s : EngineState) : EngineState :=
  if s.gameState = GameState.playing ∨ s.gameState = GameState.paused then
    { s with gameState := GameState.gameOver
             events := s.events ++ [GE.gameEnded s.score s.core.harmonyLevel] }
  else s

/-- `updateHarmonicCore(deltaTime)`: gravity, friction, speed damping,
position integration, boundary bounce at 50% restitution, natural energy
decay clamped at 0, brightness from the energy ratio, and the
`ENERGY_DEPLETED` → `endGame()` transition on crossing zero. -/
def updateHarmonicCore (s : EngineState) (deltaTime : ℚ) : EngineState :=
  let core := s.core
  let config := s.config
  let vy0 := if 0 < config.gravity then core.velocity.y + config.gravity * deltaTime
             else core.velocity.y
  let v1 : V2 := ⟨core.velocity.x * config.friction, vy0 * config.friction⟩
  let speedSq := v1.x * v1.x + v1.y * v1.y
  let v2 : V2 :=
    if ltSqrt config.maxSpeed speedSq then
      let dampingFactor := config.maxSpeed / ratSqrt speedSq
      ⟨v1.x * dampingFactor, v1.y * dampingFactor⟩
    else v1
  let p1 : V2 := ⟨core.position.x + v2.x, core.position.y + v2.y⟩
  let radius := core.radius
  let px := if p1.x - radius < 0 then radius
            else if config.canvasW < p1.x + radius then config.canvasW - radius
            else p1.x
  let vx := if p1.x - radius < 0 then |v2.x| * (1/2)
            else if config.canvasW < p1.x + radius then -|v2.x| * (1/2)
            else v2.x
  let py := if p1.y - radius < 0 then radius
            else if config.canvasH < p1.y + radius then config.canvasH - radius
            else p1.y
  let vy := if p1.y - radius < 0 then |v2.y| * (1/2)
            else if config.canvasH < p1.y + radius then -|v2.y| * (1/2)
            else v2.y
  let energyDecay := config.decayRate * deltaTime
  let newEnergy := max 0 (core.energy - energyDecay)
  let brightnessRatio := newEnergy / core.maxEnergy
  let newBrightness := 3/10 + brightnessRatio * (7/10)
  let s1 := { s with core := { core with
                position := ⟨px, py⟩
                velocity := ⟨vx, vy⟩
                energy := newEnergy
                brightness := newBrightness
                isActive := decide (0 < newEnergy) } }
  if newEnergy ≤ 0 ∧ 0 < core.energy then
    endGame { s1 with events := s1.events ++ [GE.energyDepleted] }
  else s1

/-- `applyImpulse(direction)` over exact rationals.  Note that rational
division yields `0` when the magnitude is `0`, so this function silently
leaves the velocity unchanged there; the IEEE behaviour of that
degenerate path (a `NaN` velocity) is modelled by `applyImpulseVel`. -/
def applyImpulse (s : EngineState) (direction : V2) : EngineState :=
  if s.gameState ≠ GameState.playing then s
  else
    let core := s.core
    let magnitude := ratSqrt (direction.x * direction.x + direction.y * direction.y)
    let normalizedDir : V2 := ⟨direction.x / magnitude, direction.y / magnitude⟩
    let impulseForce := s.config.impulseForce
    let newVelocity : V2 := ⟨core.velocity.x + normalizedDir.x * impulseForce,
                             core.velocity.y + normalizedDir.y * impulseForce⟩
    let energyCost : ℚ := 2
    let newEnergy := max 0 (core.energy - energyCost)
    { s with core := { core with velocity := newVelocity, energy := newEnergy } }

/-- Velocity path of `applyImpulse` under JavaScript number semantics:
`Math.sqrt(0) = 0`, and dividing the direction components by a zero
magnitude produces non-finite values that propagate into the stored
velocity. -/
def applyImpulseVel (vx vy dx dy impulseForce : ℚ) : JSNum × JSNum :=
  let magnitude := ratSqrt (dx * dx + dy * dy)
  let nx := jsDiv (.fin dx) (.fin magnitude)
  let ny := jsDiv (.fin dy) (.fin magnitude)
  (jsAdd (.fin vx) (jsMul nx (.fin impulseForce)),
   jsAdd (.fin vy) (jsMul ny (.fin impulseForce)))

/-- `generateWave(energyType)`: no-op unless PLAYING with at least 5
energy; otherwise deducts the cost and emits `RESONATOR_CONNECTED`. -/
def generateWave (s : EngineState) (energyType : EnergyType) : EngineState :=
  if s.gameState ≠ GameState.playing then s
  else
    let core := s.core
    let energyCost : ℚ := 5
    if core.energy < energyCost then s
    else
      let newEnergy := core.energy - energyCost
      { s with core := { core with energy := newEnergy }
               events := s.events ++ [GE.resonatorConnected core.position energyType] }

/-- Fires the callback body of a scheduled `setTimeout` reversal on the
current state: `frequency` boosts subtract the value back (clamped at
1.0) and strip the `frequency_boost` tag; `amplitude` boosts likewise. -/
def fireTimeout (s : EngineState) (e : TimeoutEntry) : EngineState :=
  match e.kind with
  | .freqBoost =>
      { s with core := { s.core with
          frequency := max 1 (s.core.frequency - e.value)
          activeEffects := s.core.activeEffects.filter
            (fun t => t ≠ "frequency_boost") } }
  | .ampBoost =>
      { s with core := { s.core with
          amplitude := max 1 (s.core.amplitude - e.value)
          activeEffects := s.core.activeEffects.filter
            (fun t => t ≠ "amplitude_boost") } }

/-- `applyAmplifierEffect(amplifier)`: a `switch` over the amplifier
type.  The `frequency` and `amplitude` branches schedule their reversal
with `setTimeout(..., amplifier.duration)` (an entry appended to the
ambient timer queue); the `default` branch only raises the score. -/
def applyAmplifierEffect (s : EngineState) (amplifier : Amplifier) : EngineState :=
  let core := s.core
  match amplifier.atype with
  | .energy =>
      let newEnergy := min core.maxEnergy (core.energy + amplifier.value)
      { s with core := { core with energy := newEnergy } }
  | .frequency =>
      { s with core := { core with
                 frequency := core.frequency + amplifier.value
                 activeEffects := core.activeEffects ++ ["frequency_boost"] }
               timeouts := s.timeouts ++
                 [⟨s.now + amplifier.duration, .freqBoost, amplifier.value⟩] }
  | .amplitude =>
      { s with core := { core with
                 amplitude := core.amplitude + amplifier.value
                 activeEffects := core.activeEffects ++ ["amplitude_boost"] }
               timeouts := s.timeouts ++
                 [⟨s.now + amplifier.duration, .ampBoost, amplifier.value⟩] }
  | .balance =>
      let currentBalance := core.energyBalance
      let totalEnergy := currentBalance.calm + currentBalance.vibrant + currentBalance.intense
      let ideal := totalEnergy / 3
      let adjustmentFactor := amplifier.value
      let newBalance : EnergyBalance :=
        ⟨currentBalance.calm * (1 - adjustmentFactor) + ideal * adjustmentFactor,
         currentBalance.vibrant * (1 - adjustmentFactor) + ideal * adjustmentFactor,
         currentBalance.intense * (1 - adjustmentFactor) + ideal * adjustmentFactor⟩
      { s with core := { core with
                 energyBalance := newBalance
                 activeEffects := core.activeEffects ++ ["balance_boost"] }
               events := s.events ++ [GE.energyBalanced currentBalance newBalance] }
  | .resonance | .clarity | .expansion | .stability =>
      { s with score := s.score + 10 }

/-- `handleDissonanceCollision(dissonance)`: damage floored at 0,
knockback away from the dissonance normalised by the distance,
deactivation of the hit dissonance, start of the invulnerability
cooldown, and a `CORE_COLLISION` event. -/
def handleDissonanceCollision (s : EngineState) (dissonance : Dissonance) : EngineState :=
  let core := s.core
  let newEnergy := max 0 (core.energy - dissonance.disruptionLevel)
  let dx := core.position.x - dissonance.position.x
  let dy := core.position.y - dissonance.position.y
  let distance := ratSqrt (dx * dx + dy * dy)
  let knockbackForce : ℚ := 2
  let newVelocity : V2 := ⟨core.velocity.x + dx / distance * knockbackForce,
                           core.velocity.y + dy / distance * knockbackForce⟩
  { s with core := { core with energy := newEnergy, velocity := newVelocity }
           dissonances := s.dissonances.map
             (fun d => if d.id = dissonance.id then { d with isActive := false } else d)
           coreHitCooldown := collisionCooldown
           events := s.events ++
             [GE.coreCollision dissonance.position dissonance.disruptionLevel dissonance.dtype] }

/-- `handleAmplifierCollision(amplifier)`: apply the effect, deactivate
the amplifier, emit `POWERUP_COLLECTED`. -/
def handleAmplifierCollision (s : EngineState) (amplifier : Amplifier) : EngineState :=
  let s1 := applyAmplifierEffect s amplifier
  { s1 with amplifiers := s1.amplifiers.map
              (fun a => if a.id = amplifier.id then { a with isActive := false } else a)
            events := s1.events ++
              [GE.powerupCollected amplifier.position amplifier.atype amplifier.value] }

/-- Collision test of `checkCollisions` against a dissonance:
`distance < core.radius + (dissonance.radius || 15)`. -/
def dissOverlaps (core : HarmonicCore) (d : Dissonance) : Bool :=
  let dx := d.position.x - core.position.x
  let dy := d.position.y - core.position.y
  sqrtLt (dx * dx + dy * dy) (core.radius + jsOr d.radius 15)

/-- Collision test of `checkCollisions` against an amplifier:
`distance < core.radius + amplifier.radius`. -/
def ampOverlaps (core : HarmonicCore) (a : Amplifier) : Bool :=
  let dx := a.position.x - core.position.x
  let dy := a.position.y - core.position.y
  sqrtLt (dx * dx + dy * dy) (core.radius + a.radius)

/-- `checkCollisions()`: while the invulnerability cooldown is positive it
only decrements the cooldown by the frame's delta time.  Otherwise the
first active overlapping dissonance (in list order) is handled and the
loop `break`s, and then, independently, the first active overlapping
amplifier is handled and that loop `break`s.  Both loops test distances
against the core captured at entry (whose position the dissonance handler
does not change). -/
def checkCollisions (s : EngineState) : EngineState :=
  if 0 < s.coreHitCooldown then
    { s with coreHitCooldown := s.coreHitCooldown - s.deltaTime }
  else
    let s1 :=
      match s.dissonances.find? (fun d => d.isActive && dissOverlaps s.core d) with
      | some d => handleDissonanceCollision s d
      | none => s
    match s.amplifiers.find? (fun a => a.isActive && ampOverlaps s.core a) with
    | some a => handleAmplifierCollision s1 a
    | none => s1

/-- Operations of the engine that touch the core, quantified over in the
energy invariant. -/
inductive GameOp where
  | tickCore (deltaTime : ℚ)
  | impulse (direction : V2)
  | wave (energyType : EnergyType)
  | dissHit (d : Dissonance)
  | ampCollect (a : Amplifier)

/-- Dispatch of a `GameOp` to the corresponding engine function. -/
def applyGameOp (s : EngineState) : GameOp → EngineState
  | .tickCore dt => updateHarmonicCore s dt
  | .impulse dir => applyImpulse s dir
  | .wave et => generateWave s et
  | .dissHit d => handleDissonanceCollision s d
  | .ampCollect a => handleAmplifierCollision s a

/-- Well-formedness of a `GameOp`'s parameters, as guaranteed by every
call site in the repository: time deltas are non-negative, spawned
dissonances have `disruptionLevel ∈ [10, 20)`, spawned amplifiers have
positive `value`. -/
def GameOp.wf (s : EngineState) : GameOp → Prop
  | .tickCore dt => 0 ≤ dt ∧ 0 ≤ s.config.decayRate
  | .impulse _ => True
  | .wave _ => True
  | .dissHit d => 0 ≤ d.disruptionLevel
  | .ampCollect a => 0 ≤ a.value

/-- Boolean test for `|Math.sqrt q - center| < margin` (for `0 ≤ q`),
written on squares so that it is exact over `ℚ`. -/
def sqrtNear (q center margin : ℚ) : Bool :=
  ltSqrt (center - margin) q && sqrtLt q (center + margin)

/-- `Resonator` of the harmonic system, restricted to the fields the
embedded wave update reads. -/
structure Resonator where
  id : ℕ
  position : V2
  energyType : EnergyType
  deriving DecidableEq, Repr

/-- `HarmonicWave` (wave model), restricted to the fields the embedded
wave update reads or writes. -/
structure HarmonicWave where
  origin : V2
  radius : ℚ
  maxRadius : ℚ
  propagationSpeed : ℚ
  energyType : EnergyType
  age : ℚ
  maxLifeTime : ℚ
  isActive : Bool
  opacity : ℚ
  activatedResonators : List ℕ
  deriving DecidableEq, Repr

/-- `createHarmonicWave(origin, energyType)` with the factory defaults of
the wave model. -/
def createHarmonicWave (origin : V2) (energyType : EnergyType) : HarmonicWave :=
  { origin := origin
    radius := 0
    maxRadius := 250
    propagationSpeed := 100
    energyType := energyType
    age := 0
    maxLifeTime := 3000
    isActive := true
    opacity := 8/10
    activatedResonators := [] }

/-- `updateWave(wave, deltaTime)` of the harmonic system service: age in
ms, radius growth by `propagationSpeed * dt`, opacity multiplied by
`1 - age/maxLifeTime`, deactivation when the radius exceeds `maxRadius`
or the age exceeds `maxLifeTime`, and collection of newly activated
resonator ids (same-energy resonators whose distance from the origin is
within margin 10 of the new radius).  The side effect on the resonator
store (`activateResonator`) is a separate mutation not represented in the
returned wave. -/
def updateWave (resonators : List Resonator) (wave : HarmonicWave)
    (deltaTime : ℚ) : HarmonicWave :=
  let age := wave.age + deltaTime * 1000
  let radius := wave.radius + wave.propagationSpeed * deltaTime
  let opacityFactor := 1 - age / wave.maxLifeTime
  let opacity := wave.opacity * opacityFactor
  let isActive := decide (radius ≤ wave.maxRadius) && decide (age ≤ wave.maxLifeTime)
  let activatedResonators :=
    if isActive then
      resonators.foldl (fun acc r =>
        if acc.contains r.id then acc
        else
          let dx := r.position.x - wave.origin.x
          let dy := r.position.y - wave.origin.y
          if sqrtNear (dx * dx + dy * dy) radius 10 &&
             decide (r.energyType = wave.energyType) then
            acc ++ [r.id]
          else acc) wave.activatedResonators
    else wave.activatedResonators
  { wave with radius := radius, age := age, opacity := opacity,
              isActive := isActive, activatedResonators := activatedResonators }

/-- `ResonatorConnection`, restricted to the fields the pattern detector
reads. -/
structure RConnection where
  id : ℕ
  resonatorIds : List ℕ
  energyType : EnergyType
  isActive : Bool
  deriving DecidableEq, Repr

/-- `HarmonicPattern`, restricted to the fields the pattern detector
reads and writes.  The source stores the resonator ids as
`Array.from(set)`; only the underlying id set is ever consulted, so it is
kept as a `Finset`. -/
structure HPattern where
  resonatorIds : Finset ℕ
  connectionIds : List ℕ
  energyType : EnergyType
  deriving DecidableEq

/-- Iteration order of `Object.entries(connectionsByEnergy)` — the fixed
insertion order of the four energy buckets. -/
def energyTypeOrder : List EnergyType := [.calm, .vibrant, .intense, .harmonic]

/-- Union of the resonator ids touched by a group of connections. -/
def connUnion (conns : List RConnection) : Finset ℕ :=
  conns.foldr (fun c acc => c.resonatorIds.toFinset ∪ acc) ∅

/-- Set-equality test of `checkForNewPatterns`: equal sizes plus the
existing pattern's ids all contained in the candidate set. -/
def patternMatches (p : HPattern) (rIds : Finset ℕ) : Bool :=
  decide (p.resonatorIds.card = rIds.card) && decide (p.resonatorIds ⊆ rIds)

/-- Body of `checkForNewPatterns` for one energy bucket: with at least 3
active connections of that energy, take the union of touched resonator
ids; if no existing pattern holds the same id set and the union has at
least 3 ids, append a new pattern. -/
def checkPatternsForEnergy (activeConnections : List RConnection)
    (patterns : List HPattern) (energyType : EnergyType) : List HPattern :=
  let conns := activeConnections.filter (fun c => c.energyType = energyType)
  if conns.length < 3 then patterns
  else
    let resonatorIds := connUnion conns
    let patternExists := patterns.any (fun p => patternMatches p resonatorIds)
    if patternExists = false ∧ 3 ≤ resonatorIds.card then
      patterns ++ [⟨resonatorIds, conns.map (·.id), energyType⟩]
    else patterns

/-- `checkForNewPatterns()`: filter the active connections, then process
the four energy buckets in insertion order; the pattern list is re-read
after every insertion (signal updates are synchronous), which the fold
accumulator reproduces. -/
def checkForNewPatterns (connections : List RConnection)
    (patterns : List HPattern) : List HPattern :=
  let activeConnections := connections.filter (·.isActive)
  energyTypeOrder.foldl (checkPatternsForEnergy activeConnections) patterns

theorem ratSqrt_mul_self (r : ℚ) (hr : 0 ≤ r) : ratSqrt (r * r) = r := by
  have hnum : (r * r).num = r.num * r.num := Rat.mul_self_num r
  have hden : (r * r).den = r.den * r.den := Rat.mul_self_den r
  have hrnum : 0 ≤ r.num := Rat.num_nonneg.mpr hr
  have hq : ¬ (r * r) < 0 := not_lt.mpr (mul_nonneg hr hr)
  obtain ⟨m, hm⟩ : ∃ m : ℕ, r.num = (m : ℤ) :=
    ⟨r.num.toNat, (Int.toNat_of_nonneg hrnum).symm⟩
  unfold ratSqrt
  rw [if_neg hq]
  have htn : (r * r).num.toNat = m * m := by
    rw [hnum, hm, ← Nat.cast_mul, Int.toNat_natCast]
  have hn : Nat.sqrt ((r * r).num.toNat) = m := by
    rw [htn, Nat.sqrt_eq]
  have hd : Nat.sqrt ((r * r).den) = r.den := by
    rw [hden, Nat.sqrt_eq]
  rw [hn, hd]
  have hcond : ((m : ℤ) * (m : ℤ)) = (r * r).num ∧
      r.den * r.den = (r * r).den := by
    refine ⟨?_, hden.symm⟩
    rw [hnum, hm]
  rw [if_pos hcond]
  have hmq : ((m : ℕ) : ℚ) = (r.num : ℚ) := by
    rw [hm]; push_cast; ring
  rw [hmq, Rat.num_div_den]

theorem ratSqrt_zero : ratSqrt 0 = 0 := by
  simpa using ratSqrt_mul_self 0 le_rfl

theorem ratSqrt_twentyfive : ratSqrt 25 = 5 := by
  have h : (25 : ℚ) = 5 * 5 := by norm_num
  rw [h, ratSqrt_mul_self 5 (by norm_num)]

/-- Helper: `applyAmplifierEffect` never touches the amplifier list. -/
theorem applyAmplifierEffect_amplifiers (s : EngineState) (a : Amplifier) :
    (applyAmplifierEffect s a).amplifiers = s.amplifiers := by
  cases h : a.atype <;> simp [applyAmplifierEffect, h]

/-- Helper: `applyAmplifierEffect` never touches the dissonance list. -/
theorem applyAmplifierEffect_dissonances (s : EngineState) (a : Amplifier) :
    (applyAmplifierEffect s a).dissonances = s.dissonances := by
  cases h : a.atype <;> simp [applyAmplifierEffect, h]

/-- Helper: mapping a per-id update over a list with pairwise distinct
keys deactivates at most one element, so any `countP` grows by at most
one. -/
theorem countP_map_ite_le {α : Type} (l : List α) (key : α → ℕ) (i : ℕ)
    (f : α → α) (p : α → Bool) (hnd : (l.map key).Nodup) :
    (l.map (fun x => if key x = i then f x else x)).countP p ≤ l.countP p + 1 := by
  induction l with
  | nil => simp
  | cons a l ih =>
    rw [List.map_cons, List.nodup_cons] at hnd
    obtain ⟨hna, hnd'⟩ := hnd
    by_cases hk : key a = i
    · have htail : ∀ x ∈ l, ¬ key x = i := by
        intro x hx he
        have hmem : key x ∈ l.map key := List.mem_map_of_mem key hx
        rw [he, ← hk] at hmem
        exact hna hmem
      have hmap : l.map (fun x => if key x = i then f x else x) = l := by
        have hc : ∀ x ∈ l, (if key x = i then f x else x) = x :=
          fun x hx => if_neg (htail x hx)
        calc l.map (fun x => if key x = i then f x else x)
            = l.map (fun x => x) := List.map_congr_left hc
          _ = l := List.map_id' l
      rw [List.map_cons, hmap, if_pos hk, List.countP_cons, List.countP_cons]
      split <;> split <;> omega
    · rw [List.map_cons, if_neg hk, List.countP_cons, List.countP_cons]
      have := ih hnd'
      split <;> omega

/-- C1: the claim says `applyImpulse` with a zero-magnitude direction is a
silent no-op that never produces a non-finite velocity component.  The
code has no magnitude guard: under JavaScript number semantics the
direction `(0,0)` gives `magnitude = 0`, the normalisation divides by
zero, and the stored velocity components become non-finite; the energy
cost of 2 is still charged, so the call is not a no-op either. -/
theorem applyImpulse_zero_direction_not_noop :
    applyImpulseVel 3 4 0 0 (1/2) = (JSNum.nan, JSNum.nan) ∧
    (applyImpulse { initialEngineState with gameState := .playing }
        ⟨0, 0⟩).core.energy = initialEngineState.core.energy - 2 := by
  constructor
  · norm_num [applyImpulseVel, jsDiv, jsAdd, jsMul, ratSqrt_zero]
  · simp [applyImpulse, initialEngineState, createHarmonicCore,
      createHarmonicCoreAt, max_def]
    norm_num

/-- C2: the claim says duration-bound amplifier effects are reversed by
expiry state polled each tick, never by an independently firing deferred
callback, so a stale reversal can never touch a freshly created core.
The code schedules the reversal with `setTimeout`; the trace below
collects a frequency amplifier, resets the game mid-effect (the pending
callback survives, as `startGame` never cancels timers), collects a new
frequency amplifier on the fresh core, and then the stale callback fires:
it strips the fresh core's boost (frequency 3/2 ↦ 1) and its
`frequency_boost` tag before the new effect's own duration has elapsed. -/
theorem stale_timeout_reversal_corrupts_fresh_core :
    let freqAmp : Amplifier := ⟨7, ⟨100, 100⟩, .frequency, 1/2, 15, 5000, true⟩
    let s1 := handleAmplifierCollision (startGame initialEngineState) freqAmp
    let s2 := startGame (endGame s1)
    let s3 := handleAmplifierCollision (advanceClock s2 2000) { freqAmp with id := 8 }
    let stale : TimeoutEntry := ⟨5000, .freqBoost, 1/2⟩
    stale ∈ s1.timeouts ∧
    stale ∈ s3.timeouts ∧
    s3.core.frequency = 3/2 ∧
    s3.core.activeEffects = ["frequency_boost"] ∧
    (fireTimeout s3 stale).core.frequency = 1 ∧
    (fireTimeout s3 stale).core.activeEffects = [] := by
  refine ⟨?_, ?_, ?_, ?_, ?_, ?_⟩
  all_goals
    simp [handleAmplifierCollision, applyAmplifierEffect, startGame, endGame,
      advanceClock, fireTimeout, initialEngineState, createHarmonicCore,
      createHarmonicCoreAt, createDefaultGameConfig, max_def]
  all_goals norm_num

/-- C3 (counterexample): the claim says at most one collision is
processed against the core per tick.  With one overlapping dissonance
and one overlapping amplifier, a single `checkCollisions()` call
processes both: the dissonance is deactivated (energy 50 ↦ 40) and the
amplifier is also deactivated (score +10) in the same tick. -/
theorem two_collisions_processed_in_one_tick :
    let d : Dissonance := ⟨1, ⟨103, 104⟩, .static, some 15, 10, true⟩
    let a : Amplifier := ⟨2, ⟨100, 110⟩, .resonance, 4/10, 15, 20000, true⟩
    let s : EngineState :=
      { initialEngineState with
          gameState := .playing
          core := { createHarmonicCoreAt ⟨100, 100⟩ with energy := 50 }
          dissonances := [d]
          amplifiers := [a] }
    (checkCollisions s).dissonances = [{ d with isActive := false }] ∧
    (checkCollisions s).amplifiers = [{ a with isActive := false }] ∧
    (checkCollisions s).core.energy = 40 ∧
    (checkCollisions s).score = s.score + 10 := by
  refine ⟨?_, ?_, ?_, ?_⟩
  all_goals
    simp [checkCollisions, handleDissonanceCollision, handleAmplifierCollision,
      applyAmplifierEffect, dissOverlaps, ampOverlaps, sqrtLt, jsOr, List.find?,
      initialEngineState, createHarmonicCoreAt, collisionCooldown,
      ratSqrt_twentyfive, max_def]
  all_goals norm_num

/-- C3 (amended): in every tick, `checkCollisions` processes at most one
dissonance collision and at most one amplifier collision (the first
overlapping active entity in iteration order in each category); a
dissonance hit and an amplifier hit may both occur in the same tick.
Stated as: the number of deactivated entities grows by at most one in
each category, provided entity ids are pairwise distinct (they are
collision-resistant unique ids in the source). -/
theorem checkCollisions_at_most_one_per_category (s : EngineState)
    (hd : (s.dissonances.map (·.id)).Nodup)
    (ha : (s.amplifiers.map (·.id)).Nodup) :
    (checkCollisions s).dissonances.countP (fun d => !d.isActive) ≤
      s.dissonances.countP (fun d => !d.isActive) + 1 ∧
    (checkCollisions s).amplifiers.countP (fun a => !a.isActive) ≤
      s.amplifiers.countP (fun a => !a.isActive) + 1 := by
  unfold checkCollisions
  split
  · exact ⟨Nat.le_succ_of_le le_rfl, Nat.le_succ_of_le le_rfl⟩
  · rcases hD : s.dissonances.find? (fun d => d.isActive && dissOverlaps s.core d) with _ | d <;>
      rcases hA : s.amplifiers.find? (fun a => a.isActive && ampOverlaps s.core a) with _ | a <;>
      simp only [hD, hA, handleAmplifierCollision, handleDissonanceCollision,
        applyAmplifierEffect_amplifiers, applyAmplifierEffect_dissonances]
    · exact ⟨Nat.le_succ_of_le le_rfl, Nat.le_succ_of_le le_rfl⟩
    · exact ⟨Nat.le_succ_of_le le_rfl, countP_map_ite_le _ _ _ _ _ ha⟩
    · exact ⟨countP_map_ite_le _ _ _ _ _ hd, Nat.le_succ_of_le le_rfl⟩
    · exact ⟨countP_map_ite_le _ _ _ _ _ hd, countP_map_ite_le _ _ _ _ _ ha⟩

/-- Witness for the amended C3 theorem at the concrete two-entity state
of the counterexample: both counts grow, but each by exactly one. -/
theorem checkCollisions_at_most_one_per_category_witness :
    (checkCollisions
      { initialEngineState with
          gameState := .playing
          core := { createHarmonicCoreAt ⟨100, 100⟩ with energy := 50 }
          dissonances := [⟨1, ⟨103, 104⟩, .static, some 15, 10, true⟩]
          amplifiers := [⟨2, ⟨100, 110⟩, .resonance, 4/10, 15, 20000, true⟩]
      }).dissonances.countP (fun d => !d.isActive) ≤
      [(⟨1, ⟨103, 104⟩, .static, some 15, 10, true⟩ : Dissonance)].countP
        (fun d => !d.isActive) + 1 :=
  (checkCollisions_at_most_one_per_category _ (by decide) (by decide)).1

/-- C4 (counterexample): the claim says an active wave's opacity equals
the base opacity times `1 - age/maxLifeTime`.  The code multiplies the
CURRENT opacity by that factor every tick, so after two ticks of `dt = 1`
a default wave (base opacity 4/5, maxLifeTime 3000) is still active with
opacity `4/5 * 2/3 * 1/3 = 8/45`, not `4/5 * (1 - 2000/3000) = 4/15`. -/
theorem wave_opacity_not_base_times_factor :
    let w0 := createHarmonicWave ⟨0, 0⟩ .calm
    let w2 := updateWave [] (updateWave [] w0 1) 1
    w2.isActive = true ∧ w2.opacity = 8/45 ∧
    ¬ w2.opacity = w0.opacity * (1 - w2.age / w2.maxLifeTime) := by
  refine ⟨?_, ?_, ?_⟩
  all_goals simp [updateWave, createHarmonicWave]
  all_goals norm_num

/-- C4 (amended): per tick the wave's radius grows by exactly
`propagationSpeed * dt` (hence is non-decreasing for non-negative speed
and dt), its opacity is multiplied by `1 - newAge/maxLifeTime` (the
current opacity times the factor, a compounding decay rather than a
linear ramp from the base opacity), and it is deactivated exactly when
the new radius exceeds `maxRadius` or the new age exceeds
`maxLifeTime`. -/
theorem updateWave_spec (resonators : List Resonator) (w : HarmonicWave) (dt : ℚ) :
    (updateWave resonators w dt).radius = w.radius + w.propagationSpeed * dt ∧
    (0 ≤ dt → 0 ≤ w.propagationSpeed →
      w.radius ≤ (updateWave resonators w dt).radius) ∧
    (updateWave resonators w dt).opacity =
      w.opacity * (1 - (w.age + dt * 1000) / w.maxLifeTime) ∧
    ((updateWave resonators w dt).isActive = true ↔
      (w.radius + w.propagationSpeed * dt ≤ w.maxRadius ∧
       w.age + dt * 1000 ≤ w.maxLifeTime)) := by
  refine ⟨?_, ?_, ?_, ?_⟩
  · simp [updateWave]
  · intro h1 h2
    simp only [updateWave]
    nlinarith [mul_nonneg h2 h1]
  · simp [updateWave]
  · simp [updateWave]

/-- Witness for the amended C4 theorem: one tick of a fresh default wave
with `dt = 1` does not shrink the radius. -/
theorem updateWave_spec_witness :
    (createHarmonicWave ⟨0, 0⟩ EnergyType.calm).radius ≤
      (updateWave [] (createHarmonicWave ⟨0, 0⟩ EnergyType.calm) 1).radius :=
  (updateWave_spec [] (createHarmonicWave ⟨0, 0⟩ EnergyType.calm) 1).2.1
    (by norm_num) (by norm_num [createHarmonicWave])

/-- C8: `generateWave` is a no-op (the whole state, core included, is
returned unchanged) whenever the game is not PLAYING or the core's energy
is below the wave's cost of 5; otherwise it deducts exactly 5 energy and
emits `RESONATOR_CONNECTED`. -/
theorem generateWave_spec (s : EngineState) (et : EnergyType) :
    (s.gameState ≠ GameState.playing → generateWave s et = s) ∧
    (s.core.energy < 5 → generateWave s et = s) ∧
    (s.gameState = GameState.playing → 5 ≤ s.core.energy →
      generateWave s et =
        { s with core := { s.core with energy := s.core.energy - 5 }
                 events := s.events ++
                   [GE.resonatorConnected s.core.position et] }) := by
  refine ⟨?_, ?_, ?_⟩
  · intro h
    simp [generateWave, h]
  · intro h
    by_cases hg : s.gameState = GameState.playing
    · simp [generateWave, hg, h]
    · simp [generateWave, hg]
  · intro h1 h2
    simp [generateWave, h1, not_lt.mpr h2]

/-- Witness for C8 at the initial (MENU) state: the call is a no-op. -/
theorem generateWave_spec_witness :
    generateWave initialEngineState EnergyType.calm = initialEngineState :=
  (generateWave_spec initialEngineState EnergyType.calm).1
    (by simp [initialEngineState])

/-- C9: collecting an amplifier of type `resonance`, `clarity`,
`expansion` or `stability` hits the `default` branch of
`applyAmplifierEffect`: the resulting state differs from the input only
in the score (+10), the deactivated amplifier entry, and the appended
`POWERUP_COLLECTED` event — in particular every field of the core is
unchanged. -/
theorem generic_amplifier_only_scores (s : EngineState) (a : Amplifier)
    (h : a.atype = .resonance ∨ a.atype = .clarity ∨ a.atype = .expansion ∨
         a.atype = .stability) :
    handleAmplifierCollision s a =
      { s with score := s.score + 10
               amplifiers := s.amplifiers.map
                 (fun b => if b.id = a.id then { b with isActive := false } else b)
               events := s.events ++
                 [GE.powerupCollected a.position a.atype a.value] } := by
  rcases h with h | h | h | h <;>
    simp [handleAmplifierCollision, applyAmplifierEffect, h]

/-- Witness for C9: collecting a concrete `resonance` amplifier adds
exactly 10 to the score. -/
theorem generic_amplifier_only_scores_witness :
    (handleAmplifierCollision initialEngineState
        ⟨2, ⟨100, 110⟩, .resonance, 4/10, 15, 20000, true⟩).score =
      initialEngineState.score + 10 := by
  rw [generic_amplifier_only_scores initialEngineState
    ⟨2, ⟨100, 110⟩, .resonance, 4/10, 15, 20000, true⟩ (Or.inl rfl)]

/-- C10: the `balance` amplifier replaces each energy-balance component
by the convex combination `old * (1 - value) + (total/3) * value`; this
preserves the sum `calm + vibrant + intense` exactly, and keeps every
component non-negative whenever the inputs are non-negative and the
weight lies in `[0, 1]`. -/
theorem balance_amplifier_convex_combination (s : EngineState) (a : Amplifier)
    (h : a.atype = .balance) :
    ((applyAmplifierEffect s a).core.energyBalance.calm =
        s.core.energyBalance.calm * (1 - a.value) +
          (s.core.energyBalance.calm + s.core.energyBalance.vibrant +
            s.core.energyBalance.intense) / 3 * a.value ∧
      (applyAmplifierEffect s a).core.energyBalance.vibrant =
        s.core.energyBalance.vibrant * (1 - a.value) +
          (s.core.energyBalance.calm + s.core.energyBalance.vibrant +
            s.core.energyBalance.intense) / 3 * a.value ∧
      (applyAmplifierEffect s a).core.energyBalance.intense =
        s.core.energyBalance.intense * (1 - a.value) +
          (s.core.energyBalance.calm + s.core.energyBalance.vibrant +
            s.core.energyBalance.intense) / 3 * a.value) ∧
    ((applyAmplifierEffect s a).core.energyBalance.calm +
        (applyAmplifierEffect s a).core.energyBalance.vibrant +
        (applyAmplifierEffect s a).core.energyBalance.intense =
      s.core.energyBalance.calm + s.core.energyBalance.vibrant +
        s.core.energyBalance.intense) ∧
    (0 ≤ a.value → a.value ≤ 1 →
      0 ≤ s.core.energyBalance.calm → 0 ≤ s.core.energyBalance.vibrant →
      0 ≤ s.core.energyBalance.intense →
      0 ≤ (applyAmplifierEffect s a).core.energyBalance.calm ∧
      0 ≤ (applyAmplifierEffect s a).core.energyBalance.vibrant ∧
      0 ≤ (applyAmplifierEffect s a).core.energyBalance.intense) := by
  have hb : (applyAmplifierEffect s a).core.energyBalance =
      ⟨s.core.energyBalance.calm * (1 - a.value) +
         (s.core.energyBalance.calm + s.core.energyBalance.vibrant +
           s.core.energyBalance.intense) / 3 * a.value,
       s.core.energyBalance.vibrant * (1 - a.value) +
         (s.core.energyBalance.calm + s.core.energyBalance.vibrant +
           s.core.energyBalance.intense) / 3 * a.value,
       s.core.energyBalance.intense * (1 - a.value) +
         (s.core.energyBalance.calm + s.core.energyBalance.vibrant +
           s.core.energyBalance.intense) / 3 * a.value⟩ := by
    simp [applyAmplifierEffect, h]
  rw [hb]
  refine ⟨⟨rfl, rfl, rfl⟩, by ring, ?_⟩
  intro hf hf1 hc hv hi
  have h1f : 0 ≤ 1 - a.value := by linarith
  have hT : 0 ≤ (s.core.energyBalance.calm + s.core.energyBalance.vibrant +
      s.core.energyBalance.intense) / 3 := by positivity
  exact ⟨add_nonneg (mul_nonneg hc h1f) (mul_nonneg hT hf),
         add_nonneg (mul_nonneg hv h1f) (mul_nonneg hT hf),
         add_nonneg (mul_nonneg hi h1f) (mul_nonneg hT hf)⟩

/-- Witness for C10: the sum of the initial balance `(33, 33, 34)` is
preserved by a concrete balance amplifier of weight 6/10. -/
theorem balance_amplifier_convex_combination_witness :
    (applyAmplifierEffect initialEngineState
          ⟨3, ⟨0, 0⟩, .balance, 6/10, 15, 25000, true⟩).core.energyBalance.calm +
      (applyAmplifierEffect initialEngineState
          ⟨3, ⟨0, 0⟩, .balance, 6/10, 15, 25000, true⟩).core.energyBalance.vibrant +
      (applyAmplifierEffect initialEngineState
          ⟨3, ⟨0, 0⟩, .balance, 6/10, 15, 25000, true⟩).core.energyBalance.intense =
      initialEngineState.core.energyBalance.calm +
        initialEngineState.core.energyBalance.vibrant +
        initialEngineState.core.energyBalance.intense :=
  (balance_amplifier_convex_combination initialEngineState
    ⟨3, ⟨0, 0⟩, .balance, 6/10, 15, 25000, true⟩ rfl).2.1

/-- Helper: `endGame` never changes the core. -/
theorem endGame_core (s : EngineState) : (endGame s).core = s.core := by
  unfold endGame
  split <;> rfl

/-- Helper: energy after `updateHarmonicCore` is exactly the clamped
decay, and `maxEnergy` is untouched. -/
theorem updateHarmonicCore_energy (s : EngineState) (dt : ℚ) :
    (updateHarmonicCore s dt).core.energy =
      max 0 (s.core.energy - s.config.decayRate * dt) ∧
    (updateHarmonicCore s dt).core.maxEnergy = s.core.maxEnergy := by
  unfold updateHarmonicCore
  dsimp only
  split
  · rw [endGame_core]
    exact ⟨rfl, rfl⟩
  · exact ⟨rfl, rfl⟩

/-- Helper: `handleAmplifierCollision` leaves the core exactly as
`applyAmplifierEffect` does. -/
theorem handleAmplifierCollision_core (s : EngineState) (a : Amplifier) :
    (handleAmplifierCollision s a).core = (applyAmplifierEffect s a).core := rfl

/-- C5: for every state whose core energy lies in `[0, maxEnergy]` and
every engine operation with well-formed parameters (non-negative time
delta and decay rate, non-negative disruption level and amplifier value,
as every call site guarantees), the core's energy stays in
`[0, maxEnergy]` after the operation. -/
theorem core_energy_invariant (s : EngineState) (op : GameOp)
    (h0 : 0 ≤ s.core.energy) (h1 : s.core.energy ≤ s.core.maxEnergy)
    (hwf : op.wf s) :
    0 ≤ (applyGameOp s op).core.energy ∧
    (applyGameOp s op).core.energy ≤ (applyGameOp s op).core.maxEnergy := by
  have hM : 0 ≤ s.core.maxEnergy := h0.trans h1
  cases op with
  | tickCore dt =>
      obtain ⟨hdt, hdr⟩ := hwf
      have he := (updateHarmonicCore_energy s dt).1
      have hm := (updateHarmonicCore_energy s dt).2
      simp only [applyGameOp]
      rw [he, hm]
      refine ⟨le_max_left _ _, max_le hM ?_⟩
      nlinarith [mul_nonneg hdr hdt]
  | impulse dir =>
      simp only [applyGameOp, applyImpulse]
      split
      · exact ⟨h0, h1⟩
      · refine ⟨le_max_left _ _, max_le hM (by linarith)⟩
  | wave et =>
      simp only [applyGameOp, generateWave]
      split
      · exact ⟨h0, h1⟩
      · split
        · exact ⟨h0, h1⟩
        · rename_i hge
          rw [not_lt] at hge
          exact ⟨by simpa using hge, by simp; linarith⟩
  | dissHit d =>
      simp only [applyGameOp, handleDissonanceCollision]
      exact ⟨le_max_left _ _, max_le hM (by simp [GameOp.wf] at hwf; linarith)⟩
  | ampCollect a =>
      rw [GameOp.wf] at hwf
      simp only [applyGameOp, handleAmplifierCollision_core]
      cases h : a.atype <;> simp only [applyAmplifierEffect, h]
      case energy => exact ⟨le_min hM (by linarith), min_le_left _ _⟩
      all_goals exact ⟨h0, h1⟩

/-- Witness for C5 at the initial core and one tick of decay. -/
theorem core_energy_invariant_witness :
    0 ≤ (applyGameOp initialEngineState (.tickCore 1)).core.energy ∧
    (applyGameOp initialEngineState (.tickCore 1)).core.energy ≤
      (applyGameOp initialEngineState (.tickCore 1)).core.maxEnergy :=
  core_energy_invariant initialEngineState (.tickCore 1)
    (by norm_num [initialEngineState, createHarmonicCore, createHarmonicCoreAt])
    (by norm_num [initialEngineState, createHarmonicCore, createHarmonicCoreAt])
    ⟨by norm_num, by norm_num [initialEngineState, createDefaultGameConfig]⟩

/-- C7: while the invulnerability cooldown is not active, the first
active dissonance overlapping the core (with no overlapping amplifier in
the same tick, and at a positive exact distance `r`) is processed: the
hit subtracts exactly `disruptionLevel` from the energy (floored at 0),
adds the normalized knockback `2 * (core - dissonance)/r` to the
velocity, deactivates exactly that dissonance, sets the 0.6 s cooldown,
and appends `CORE_COLLISION`; and while the cooldown is positive,
`checkCollisions` evaluates no collision at all — it only decrements the
cooldown, so a second overlapping dissonance costs no energy. -/
theorem dissonance_hit_spec (s : EngineState) (d : Dissonance) (r : ℚ)
    (hcool : ¬ 0 < s.coreHitCooldown)
    (hfind : s.dissonances.find?
      (fun e => e.isActive && dissOverlaps s.core e) = some d)
    (hamp : s.amplifiers.find?
      (fun a => a.isActive && ampOverlaps s.core a) = none)
    (hr : 0 < r)
    (hr2 : r * r =
      (s.core.position.x - d.position.x) * (s.core.position.x - d.position.x) +
      (s.core.position.y - d.position.y) * (s.core.position.y - d.position.y)) :
    ((checkCollisions s).core.energy =
        max 0 (s.core.energy - d.disruptionLevel) ∧
     (checkCollisions s).core.velocity =
       ⟨s.core.velocity.x + (s.core.position.x - d.position.x) / r * 2,
        s.core.velocity.y + (s.core.position.y - d.position.y) / r * 2⟩ ∧
     (checkCollisions s).dissonances = s.dissonances.map
       (fun e => if e.id = d.id then { e with isActive := false } else e) ∧
     (checkCollisions s).coreHitCooldown = collisionCooldown ∧
     (checkCollisions s).events = s.events ++
       [GE.coreCollision d.position d.disruptionLevel d.dtype]) ∧
    (∀ t : EngineState, 0 < t.coreHitCooldown →
      checkCollisions t = { t with coreHitCooldown := t.coreHitCooldown - t.deltaTime }) := by
  constructor
  · have hsd : ratSqrt
        ((s.core.position.x - d.position.x) * (s.core.position.x - d.position.x) +
         (s.core.position.y - d.position.y) * (s.core.position.y - d.position.y)) = r := by
      rw [← hr2, ratSqrt_mul_self r hr.le]
    have hc : checkCollisions s = handleDissonanceCollision s d := by
      unfold checkCollisions
      rw [if_neg hcool, hfind, hamp]
    rw [hc]
    unfold handleDissonanceCollision
    dsimp only
    rw [hsd]
    exact ⟨rfl, rfl, rfl, rfl, rfl⟩
  · intro t ht
    unfold checkCollisions
    rw [if_pos ht]

/-- Witness for C7: a dissonance with `disruptionLevel = 10` overlapping
the core at exact distance 5 (a 3-4-5 offset) reduces the energy from 50
to `max 0 (50 - 10) = 40`. -/
theorem dissonance_hit_spec_witness :
    (checkCollisions
      { initialEngineState with
          gameState := .playing
          core := { createHarmonicCoreAt ⟨100, 100⟩ with energy := 50 }
          dissonances := [⟨1, ⟨103, 104⟩, .static, some 15, 10, true⟩]
      }).core.energy =
      max 0 (({ createHarmonicCoreAt ⟨100, 100⟩ with
                  energy := 50 } : HarmonicCore).energy - 10) :=
  ((dissonance_hit_spec
      { initialEngineState with
          gameState := .playing
          core := { createHarmonicCoreAt ⟨100, 100⟩ with energy := 50 }
          dissonances := [⟨1, ⟨103, 104⟩, .static, some 15, 10, true⟩] }
      ⟨1, ⟨103, 104⟩, .static, some 15, 10, true⟩ 5
      (by norm_num [initialEngineState])
      (by
        simp only [initialEngineState, createHarmonicCoreAt, dissOverlaps,
          sqrtLt, jsOr]
        norm_num [List.find?])
      (by simp [initialEngineState])
      (by norm_num)
      (by norm_num [createHarmonicCoreAt])).1).1

/-- Helper: the set-equality test of the pattern detector really decides
equality of the id sets. -/
theorem patternMatches_iff (p : HPattern) (rIds : Finset ℕ) :
    patternMatches p rIds = true ↔ p.resonatorIds = rIds := by
  unfold patternMatches
  simp only [Bool.and_eq_true, decide_eq_true_eq]
  constructor
  · rintro ⟨hcard, hsub⟩
    exact Finset.eq_of_subset_of_card_le hsub (le_of_eq hcard.symm)
  · rintro rfl
    exact ⟨rfl, Finset.Subset.refl _⟩

/-- Helper: one energy bucket of `checkForNewPatterns` preserves
pairwise distinctness of the pattern id sets, because a pattern is only
appended when no existing pattern passes the set-equality test. -/
theorem checkPatternsForEnergy_distinct (ac : List RConnection)
    (ps : List HPattern) (et : EnergyType)
    (h : ps.Pairwise (fun p q => p.resonatorIds ≠ q.resonatorIds)) :
    (checkPatternsForEnergy ac ps et).Pairwise
      (fun p q => p.resonatorIds ≠ q.resonatorIds) := by
  unfold checkPatternsForEnergy
  dsimp only
  split
  · exact h
  · split
    · rename_i hcond
      obtain ⟨hex, hcard⟩ := hcond
      rw [List.pairwise_append]
      refine ⟨h, List.pairwise_singleton _ _, ?_⟩
      intro p hp q hq heq
      rw [List.mem_singleton] at hq
      subst hq
      have hany : ps.any
          (fun p => patternMatches p
            (connUnion (ac.filter (fun c => c.energyType = et)))) = true :=
        List.any_eq_true.mpr
          ⟨p, hp, (patternMatches_iff _ _).mpr (by simpa using heq)⟩
      rw [hex] at hany
      cases hany
    · exact h

/-- C6: the pattern detector never creates two patterns with identical
resonator-id sets: if the existing patterns have pairwise distinct id
sets, so do the patterns after `checkForNewPatterns` — each energy
bucket appends its candidate only when the union of the resonator ids of
its (at least 3) same-energy active connections matches no pattern
present at that moment, including ones appended earlier in the same
call. -/
theorem checkForNewPatterns_distinct (connections : List RConnection)
    (patterns : List HPattern)
    (h : patterns.Pairwise (fun p q => p.resonatorIds ≠ q.resonatorIds)) :
    (checkForNewPatterns connections patterns).Pairwise
      (fun p q => p.resonatorIds ≠ q.resonatorIds) := by
  unfold checkForNewPatterns
  dsimp only [energyTypeOrder, List.foldl]
  exact checkPatternsForEnergy_distinct _ _ _
    (checkPatternsForEnergy_distinct _ _ _
      (checkPatternsForEnergy_distinct _ _ _
        (checkPatternsForEnergy_distinct _ _ _ h)))

/-- Witness for C6: three calm connections forming a triangle over
resonators 1, 2, 3 yield a pattern list with pairwise distinct id sets
starting from the empty list. -/
theorem checkForNewPatterns_distinct_witness :
    (checkForNewPatterns
      [⟨1, [1, 2], .calm, true⟩, ⟨2, [2, 3], .calm, true⟩,
       ⟨3, [3, 1], .calm, true⟩] []).Pairwise
      (fun p q => p.resonatorIds ≠ q.resonatorIds) :=
  checkForNewPatterns_distinct _ [] List.Pairwise.nil
